import Mathlib

/-!
# Verification of the on-demand HLS segmenting and caching pipeline

Shallow embedding of the core of the media route (`routes/hls.js`-style router,
`src/unnamed/part_004`): job admission (`class Semaphore`), the cache-store
predicates (`isSongCached`, `isSegmentValid`), the cache eviction sweep
(`cleanupCache`), the download fetcher (`downloadFile`), the transcode
publish path of `runFFmpegTranscode`, the playlist manifest builder
(`stream.m3u8` route), the in-flight deduplication discipline around
`generatingLocks`, and the preload endpoint.

Numbers: JS numbers are modelled as `Int`/`Nat` where the code only ever
holds integers (sizes, counts, timestamps) and as `Rat` where fractional
values occur (segment durations, the cleanup target ratio).  JS `x || y`
on numbers is modelled as `if x = 0 then y else x` (the values in play are
never `NaN` in the modelled paths).  Strings that the code only compares
for equality (error messages, hostnames) are modelled by inductive tags /
abstract codes.
-/

namespace MusicForUrl

/-! ## Job admission controller (`class Semaphore`, part_004 lines 226-266)

State of the semaphore.  `current` is `Int` because the JS counter can in
principle be decremented below zero by an unbalanced `release()`.  The queue
holds opaque waiter identifiers, oldest first (JS `push` appends, `shift`
removes the front).  In the source the queue bound is read from the global
`JOB_LIMITS.maxQueueSize`; it is carried here as a field. -/
structure Semaphore where
  max : Nat
  maxQueueSize : Nat
  current : Int
  queue : List Nat
  deriving Repr, DecidableEq

/-- Result of `acquire()`: resolve `true` immediately, resolve `false`
immediately (queue full), or park the caller in the wait queue. -/
inductive AcquireOutcome where
  | granted
  | rejected
  | enqueued
  deriving Repr, DecidableEq

/-- `Semaphore.acquire` (lines 233-248): grant when `current < max`;
otherwise reject when `queue.length >= JOB_LIMITS.maxQueueSize`;
otherwise append the caller to the wait queue. -/
def Semaphore.acquire (s : Semaphore) (waiter : Nat) : AcquireOutcome × Semaphore :=
  if s.current < (s.max : Int) then
    (.granted, { s with current := s.current + 1 })
  else if s.maxQueueSize ≤ s.queue.length then
    (.rejected, s)
  else
    (.enqueued, { s with queue := s.queue ++ [waiter] })

/-- `Semaphore.release` (lines 250-257): decrement `current`; if the queue is
non-empty and the decremented count is below `max`, re-increment and resolve
the oldest waiter (`queue.shift()`).  Returns the waiter granted, if any. -/
def Semaphore.release (s : Semaphore) : Option Nat × Semaphore :=
  let s1 : Semaphore := { s with current := s.current - 1 }
  match s1.queue with
  | [] => (none, s1)
  | w :: rest =>
    if s1.current < (s1.max : Int) then
      (some w, { s1 with current := s1.current + 1, queue := rest })
    else
      (none, s1)

/-! ## Error taxonomy of a segment-generation attempt

`generateSongSegments` throws `new Error('服务繁忙，请稍后重试')` exactly when
`jobSemaphore.acquire()` resolves `false`; the segment endpoint catch block
compares `e.message` against that literal string.  Since the code only tests
the message for equality, the message is modelled as an inductive tag. -/
inductive JobError where
  | busyRetryLater
  | otherFailure (tag : Nat)
  deriving Repr, DecidableEq

/-- The admission prefix of `generateSongSegments` (lines 585-590): awaiting
`jobSemaphore.acquire()`; a `false` resolution throws the busy error, any
other resolution lets the job proceed (an enqueued caller proceeds once its
promise resolves `true`). -/
def generateAdmission (s : Semaphore) (waiter : Nat) :
    Except JobError (AcquireOutcome × Semaphore) :=
  match s.acquire waiter with
  | (.rejected, _) => .error .busyRetryLater
  | (o, s') => .ok (o, s')

/-- The load counters embedded in a 503 body (`queueInfo` object,
lines 1363-1367). -/
structure QueueInfo where
  running : Int
  waiting : Nat
  maxConcurrent : Nat
  deriving Repr, DecidableEq

/-- JSON error response of the segment endpoint's catch block. -/
structure HttpErrorResponse where
  status : Nat
  err : JobError
  queueInfo : Option QueueInfo
  deriving Repr, DecidableEq

/-- The catch block of the segment endpoint (lines 1355-1373): the busy
message maps to 503 with the semaphore's current counters, every other
failure maps to 500 with no counters. -/
def segmentErrorResponse (sem : Semaphore) (e : JobError) : HttpErrorResponse :=
  if e = .busyRetryLater then
    { status := 503, err := e,
      queueInfo := some
        { running := sem.current, waiting := sem.queue.length, maxConcurrent := sem.max } }
  else
    { status := 500, err := e, queueInfo := none }

/-- Composition: a cache-miss segment request that reaches generation either
propagates an admission rejection to the catch block (the semaphore state is
unchanged by a rejection, so the counters reported are those observed at
`acquire`) or proceeds. -/
def segmentMissErrorOutcome (sem : Semaphore) (waiter : Nat) : Option HttpErrorResponse :=
  match generateAdmission sem waiter with
  | .error e => some (segmentErrorResponse sem e)
  | .ok _ => none

/-! ## Segment cache store (part_004 lines 369-433)

The per-track on-disk state that `isSongCached` / `isSegmentValid` /
`getSongSegmentInfo` inspect: the `info.json` manifest and the
`seg_%04d.ts` segment files of one track's cache directory. -/

/-- Parsed contents of a track's `info.json` manifest (the fields read back
by the cache checks; `video` is `Option` because line 393 guards
`!info.video`). -/
structure SongInfo where
  version : Int
  video : Option (Int × Int)
  timestamp : Int
  segmentCount : Nat
  segmentDurations : List Rat
  deriving Repr, DecidableEq

/-- The configuration against which a manifest is validated:
`CACHE_VERSION`, `COVER_OUTPUT`, `CACHE_CONFIG.maxAge`. -/
structure CacheConfig where
  cacheVersion : Int
  width : Int
  height : Int
  maxAge : Int
  deriving Repr, DecidableEq

/-- The configuration actually built at lines 85-120 under default
environment: `CACHE_VERSION = 2`, 1920x1080 output, 24h max age (ms). -/
def defaultCacheConfig : CacheConfig :=
  { cacheVersion := 2, width := 1920, height := 1080, maxAge := 24 * 60 * 60 * 1000 }

/-- On-disk state of one track's cache directory.
`info = none`: no `info.json`; `info = some none`: present but
`JSON.parse`/read throws (or required fields unusable); `info = some (some m)`:
parses to `m`.  `segs` lists the segment files present as
`(index, byte size)` pairs (regular files; a non-file at a segment path is
modelled as absent, which `stat.isFile()` would likewise reject). -/
structure TrackDir where
  info : Option (Option SongInfo)
  segs : List (Nat × Nat)
  deriving Repr, DecidableEq

/-- Size of the segment file at `seg_%04d.ts` index `i`, when present. -/
def TrackDir.segSize (d : TrackDir) (i : Nat) : Option Nat :=
  d.segs.lookup i

/-- `isSongCached` (lines 385-405): manifest present and parsable, cache
version equal, video dimensions equal to the configured output, age not
exceeding max age, and every segment file `0 ≤ i < segmentCount` present
(`fs.existsSync` — presence only, no size check). -/
def isSongCached (cfg : CacheConfig) (now : Int) (d : TrackDir) : Bool :=
  match d.info with
  | none => false
  | some none => false
  | some (some info) =>
    if info.version ≠ cfg.cacheVersion then false
    else match info.video with
      | none => false
      | some (w, h) =>
        if w ≠ cfg.width ∨ h ≠ cfg.height then false
        else if cfg.maxAge < now - info.timestamp then false
        else (List.range info.segmentCount).all fun i => (d.segSize i).isSome

/-- `isSegmentValid` (lines 425-433): the segment file exists, is a regular
file, and is strictly larger than 1024 bytes. -/
def isSegmentValid (d : TrackDir) (i : Nat) : Bool :=
  match d.segSize i with
  | some sz => 1024 < sz
  | none => false

/-- The cache-validity predicate as the specification words it: manifest
present and parsable, format version and output dimensions match, age under
max-age, and every referenced segment file present **and above a minimum
size**.  Stated from the spec's sentence for comparison against the code's
`isSongCached`. -/
def isValidPerSpec (cfg : CacheConfig) (minSegSize : Nat) (now : Int) (d : TrackDir) : Bool :=
  match d.info with
  | some (some info) =>
    decide (info.version = cfg.cacheVersion) &&
    (match info.video with
      | some wh => decide (wh.1 = cfg.width ∧ wh.2 = cfg.height)
      | none => false) &&
    decide (now - info.timestamp ≤ cfg.maxAge) &&
    ((List.range info.segmentCount).all fun i =>
      match d.segSize i with
      | some sz => decide (minSegSize < sz)
      | none => false)
  | _ => false

/-! ## Preload endpoint, per-track step (part_004 lines 1460-1480) -/

/-- Per-track status row reported by `POST /:token/:playlistId/preload`. -/
inductive PreloadStatus where
  | cachedAlready (segments : Nat)
  | noUrl
  | generated (segments : Nat)
  | failed (e : JobError)
  deriving Repr, DecidableEq

/-- The segment count attached to a `cached` row:
`getSongSegmentInfo(id)?.segmentCount || 0` (the in-memory manifest cache is
write-through from the same file contents, so the count is read off the
manifest). -/
def cachedSegmentCount (d : TrackDir) : Nat :=
  match d.info with
  | some (some info) => info.segmentCount
  | _ => 0

/-- One iteration of the preload loop for a single track: an already-cached
track is reported `cached` and skipped (`continue`) with no generation; an
unavailable audio URL is reported `no_url`; otherwise
`generateSongSegments` runs — abstracted as `gen`, returning the mutated
track directory and the produced segment count, or a failure.  The middle
component counts encoder invocations performed by the step. -/
def preloadTrack (cfg : CacheConfig) (now : Int) (audioUrl : Option Nat)
    (gen : TrackDir → Except JobError (TrackDir × Nat)) (d : TrackDir) :
    PreloadStatus × Nat × TrackDir :=
  if isSongCached cfg now d then
    (.cachedAlready (cachedSegmentCount d), 0, d)
  else
    match audioUrl with
    | none => (.noUrl, 0, d)
    | some _ =>
      match gen d with
      | .ok dn => (.generated dn.2, 1, dn.1)
      | .error e => (.failed e, 1, d)

/-! ## Playlist manifest builder (`stream.m3u8` route, part_004 lines 1129-1180)

JS arithmetic on durations: `Math.ceil`, the `%` operator (truncated
remainder) and falsy-`||` fallbacks, over `Rat`. -/

/-- JS truncation toward zero. -/
def ratTrunc (q : Rat) : Int :=
  if 0 ≤ q then ⌊q⌋ else ⌈q⌉

/-- JS `a % b` for finite operands with `b ≠ 0`: `a - b * trunc(a / b)`. -/
def jsMod (a b : Rat) : Rat :=
  a - b * (ratTrunc (a / b) : Rat)

/-- One logical line of the generated playlist body (an `extinf` entry
stands for the `#EXTINF` line together with its segment URL line, whose
path is `seg/{songId}/{segIdx}.ts`). -/
inductive M3U8Entry where
  | discontinuity
  | programDateTime
  | extinf (duration : Rat) (songId : Nat) (segIdx : Nat)
  deriving Repr, DecidableEq

/-- A track as the builder sees it: its id, its upstream `song.duration`
(`0` models a missing/zero duration, both falsy), and the result of
`getSongSegmentInfo` when that manifest has a `segmentDurations` field
(the branch test at line 1149 is `segmentInfo && segmentInfo.segmentDurations`). -/
structure SongRef where
  id : Nat
  duration : Rat
  cachedInfo : Option SongInfo
  deriving Repr, DecidableEq

/-- Cached branch (lines 1149-1160): one `#EXTINF` per index
`0 ≤ i < segmentCount` with duration `segmentDurations[i] || segmentDuration`
(an absent index and a zero stored duration both fall back). -/
def cachedEntries (segmentDuration : Rat) (songId : Nat) (info : SongInfo) : List M3U8Entry :=
  (List.range info.segmentCount).map fun i =>
    .extinf
      (if info.segmentDurations.getD i 0 = 0 then segmentDuration
       else info.segmentDurations.getD i 0)
      songId i

/-- Estimated branch (lines 1161-1177): `ceil(songDuration / segmentDuration)`
entries of the segment duration, the last one
`(songDuration % segmentDuration) || segmentDuration`. -/
def estimatedEntries (segmentDuration : Rat) (songId : Nat) (songDuration : Rat) :
    List M3U8Entry :=
  (List.range (⌈songDuration / segmentDuration⌉ : Int).toNat).map fun i =>
    .extinf
      (if i + 1 = (⌈songDuration / segmentDuration⌉ : Int).toNat then
        if jsMod songDuration segmentDuration = 0 then segmentDuration
        else jsMod songDuration segmentDuration
       else segmentDuration)
      songId i

/-- One track's block, without the leading discontinuity: the cached branch
additionally emits a `#EXT-X-PROGRAM-DATE-TIME` line; the estimated branch
uses `song.duration || 240`. -/
def trackEntries (segmentDuration : Rat) (s : SongRef) : List M3U8Entry :=
  match s.cachedInfo with
  | some info => M3U8Entry.programDateTime :: cachedEntries segmentDuration s.id info
  | none => estimatedEntries segmentDuration s.id (if s.duration = 0 then 240 else s.duration)

/-- The per-track loop of the builder (lines 1141-1178): for each song, a
`#EXT-X-DISCONTINUITY` line when `songIndex > 0`, then the track's block. -/
def playlistEntries (segmentDuration : Rat) (songs : List SongRef) : List M3U8Entry :=
  (songs.enum.map fun p =>
    (if 0 < p.1 then [M3U8Entry.discontinuity] else []) ++ trackEntries segmentDuration p.2).flatten

/-- The `#EXTINF` durations of a playlist body, in order. -/
def entryDurations (l : List M3U8Entry) : List Rat :=
  l.filterMap fun e =>
    match e with
    | .extinf d _ _ => some d
    | _ => none

/-! ## Download fetcher (`downloadFile`, part_004 lines 924-1028)

URLs are modelled as protocol + hostname; hostnames are coded as numbers
(the code only feeds the lowercased hostname to the allow-list regexes,
abstracted as a predicate `allowHost`). -/

/-- URL protocol as distinguished by `isDownloadUrlAllowed`. -/
inductive UrlProtocol where
  | http
  | https
  | nonHttp (tag : Nat)
  deriving Repr, DecidableEq

/-- A parsed URL. -/
structure DlUrl where
  protocol : UrlProtocol
  host : Nat
  deriving Repr, DecidableEq

/-- `isDownloadUrlAllowed` (lines 202-223): `new URL` must parse (`none`
models a throw), the protocol must be `http:`/`https:`, and the hostname
must match the allow-list. -/
def isDownloadUrlAllowed (allowHost : Nat → Bool) (u : Option DlUrl) : Bool :=
  match u with
  | none => false
  | some uu =>
    if uu.protocol = .http ∨ uu.protocol = .https then allowHost uu.host
    else false

/-- What the network returns for a request: a redirect status
(301/302/303/307/308, with `location` absent, unresolvable, or a URL), a
non-200 non-redirect status, a 200 response with optional
`Content-Length` header and a list of body chunk sizes, a socket timeout,
or a request error. -/
inductive DlResponse where
  | redirect (location : Option (Option DlUrl))
  | httpStatus (code : Nat)
  | ok (contentLength : Option Nat) (chunks : List Nat)
  | timedOut
  | netError
  deriving Repr, DecidableEq

/-- The distinct rejection reasons of `downloadFile`. -/
inductive DlError where
  | tooManyRedirects
  | blockedUrl
  | redirectNoLocation
  | redirectInvalidLocation
  | redirectBlocked
  | badStatus (code : Nat)
  | contentLengthTooLarge (n : Nat)
  | sizeExceeded (n : Nat)
  | timedOut
  | network
  deriving Repr, DecidableEq

/-- Limits from `JOB_LIMITS` used by the fetcher. -/
structure DlLimits where
  downloadMaxSize : Nat
  downloadMaxRedirects : Nat
  deriving Repr, DecidableEq

/-- Outcome of one `downloadFile` promise: the rejection reason if any
(`none` = resolved), whether a file remains at `destinationPath` after the
promise settles, and how many response-body bytes were written to it before
settling. -/
structure DlOutcome where
  result : Option DlError
  fileRemains : Bool
  bodyBytesWritten : Nat
  deriving Repr, DecidableEq

/-- The body `data` monitor (lines 993-1003): accumulate chunk sizes and
abort once the running total passes the limit.  Returns
`(aborted, total at settle)`. -/
def streamBody (maxSize : Nat) : List Nat → Nat → Bool × Nat
  | [], acc => (false, acc)
  | c :: rest, acc =>
    let acc' := acc + c
    if maxSize < acc' then (true, acc')
    else streamBody maxSize rest acc'

/-- Settling of the 200 branch after the `Content-Length` gate: stream the
body; on overrun the file is destroyed and unlinked (lines 996-1001), on
finish the promise resolves with the file in place (lines 1006-1011). -/
def dlConsumeBody (maxSize : Nat) (chunks : List Nat) : DlOutcome :=
  match streamBody maxSize chunks 0 with
  | (true, n) => { result := some (.sizeExceeded n), fileRemains := false, bodyBytesWritten := n }
  | (false, n) => { result := none, fileRemains := true, bodyBytesWritten := n }

/-- `downloadFile(url, filePath, redirectCount)` (lines 924-1028).  In
source order: the redirect-count gate, the SSRF gate, stream creation, then
the response dispatch — every redirect unlinks the file before examining
the target, and the target is re-validated against the allow-list before
the recursive call (lines 957-975); a declared `Content-Length` above the
limit destroys the request before any body handling (lines 985-991);
non-200 statuses, body overrun, timeout and request errors all unlink the
file (lines 978-981, 996-1002, 1015-1026). -/
def downloadFile (net : DlUrl → DlResponse) (allowHost : Nat → Bool) (lim : DlLimits)
    (u : Option DlUrl) (redirectCount : Nat) : DlOutcome :=
  if _h : lim.downloadMaxRedirects ≤ redirectCount then
    { result := some .tooManyRedirects, fileRemains := false, bodyBytesWritten := 0 }
  else if ¬ isDownloadUrlAllowed allowHost u then
    { result := some .blockedUrl, fileRemains := false, bodyBytesWritten := 0 }
  else
    match u with
    | none =>
      { result := some .blockedUrl, fileRemains := false, bodyBytesWritten := 0 }
    | some uu =>
      match net uu with
      | .redirect location =>
        match location with
        | none =>
          { result := some .redirectNoLocation, fileRemains := false, bodyBytesWritten := 0 }
        | some none =>
          { result := some .redirectInvalidLocation, fileRemains := false, bodyBytesWritten := 0 }
        | some (some ru) =>
          if ¬ isDownloadUrlAllowed allowHost (some ru) then
            { result := some .redirectBlocked, fileRemains := false, bodyBytesWritten := 0 }
          else
            downloadFile net allowHost lim (some ru) (redirectCount + 1)
      | .httpStatus code =>
        { result := some (.badStatus code), fileRemains := false, bodyBytesWritten := 0 }
      | .ok contentLength chunks =>
        match contentLength with
        | some n =>
          if n ≠ 0 ∧ lim.downloadMaxSize < n then
            { result := some (.contentLengthTooLarge n), fileRemains := false,
              bodyBytesWritten := 0 }
          else dlConsumeBody lim.downloadMaxSize chunks
        | none => dlConsumeBody lim.downloadMaxSize chunks
      | .timedOut =>
        { result := some .timedOut, fileRemains := false, bodyBytesWritten := 0 }
      | .netError =>
        { result := some .network, fileRemains := false, bodyBytesWritten := 0 }
termination_by lim.downloadMaxRedirects - redirectCount
decreasing_by simp_wf; omega

/-! ## Transcode worker publish path (`runFFmpegTranscode` success branch,
part_004 lines 746-791)

After a zero exit code: parse the per-segment durations from the generated
temp `.m3u8`, rename each produced temp segment file into the track's
cache directory (`for i in 0..segmentFiles.length`, sorted filename order
= index order), then write `info.json` with
`segmentCount = segmentFiles.length`. -/

/-- One cache-directory mutation of the publish path. -/
inductive PublishOp where
  | moveSeg (idx : Nat) (size : Nat)
  | writeInfo (info : SongInfo)
  deriving Repr, DecidableEq

/-- `fs.renameSync` onto `seg_%04d.ts` overwrites an existing file at that
index, else creates it. -/
def upsertSeg : List (Nat × Nat) → Nat → Nat → List (Nat × Nat)
  | [], i, sz => [(i, sz)]
  | (j, s) :: rest, i, sz =>
    if j = i then (i, sz) :: rest else (j, s) :: upsertSeg rest i sz

/-- Apply one publish mutation to the track directory. -/
def applyPublishOp (d : TrackDir) : PublishOp → TrackDir
  | .moveSeg i sz => { d with segs := upsertSeg d.segs i sz }
  | .writeInfo info => { d with info := some (some info) }

/-- Apply a sequence of publish mutations in order. -/
def applyPublishOps (d : TrackDir) (ops : List PublishOp) : TrackDir :=
  ops.foldl applyPublishOp d

/-- The full mutation sequence of the success path: the loop of renames
(lines 765-769, `tempSegSizes` are the produced files' sizes in sorted
order) followed by the single `info.json` write (lines 771-781). -/
def publishOps (cfg : CacheConfig) (now : Int) (tempSegSizes : List Nat)
    (parsedDurations : List Rat) : List PublishOp :=
  ((List.range tempSegSizes.length).map fun i =>
    PublishOp.moveSeg i (tempSegSizes.getD i 0)) ++
  [PublishOp.writeInfo
    { version := cfg.cacheVersion, video := some (cfg.width, cfg.height), timestamp := now,
      segmentCount := tempSegSizes.length, segmentDurations := parsedDurations }]

/-- A track directory with nothing in it. -/
def emptyTrackDir : TrackDir := { info := none, segs := [] }

/-! ## Cache eviction sweep (`cleanupCache`, part_004 lines 475-568)

`cleanupCache` is fully synchronous (no `await`), so under the cooperative
scheduler the set of in-flight locks (`generatingLocks`) is fixed for the
whole sweep; it is passed as `locked`. -/

/-- What the collection scan records for one track directory: id, summed
file size, directory mtime, and the manifest's `timestamp` field when
`info.json` is present and parses (`none` otherwise). -/
structure CacheDirEnt where
  id : Nat
  size : Nat
  mtime : Int
  infoTimestamp : Option Int
  deriving Repr, DecidableEq

/-- Effective timestamp (lines 495-503): `info.timestamp || mtime`, with the
directory mtime as default. -/
def effTimestamp (e : CacheDirEnt) : Int :=
  match e.infoTimestamp with
  | some t => if t = 0 then e.mtime else t
  | none => e.mtime

/-- The sweep's configuration: `CACHE_CONFIG.maxAge`, `.maxSize`,
`.cleanupToRatio`. -/
structure CleanupConfig where
  maxAge : Int
  maxSize : Nat
  cleanupToRatio : Rat
  deriving Repr, DecidableEq

/-- `CACHE_CONFIG.cleanupToRatio` construction (lines 97-99): an
environment-supplied value is used only when finite and strictly between 0
and 1, else the default 0.8. -/
def mkCleanupToRatio (env : Option Rat) : Rat :=
  match env with
  | some r => if 0 < r ∧ r < 1 then r else (8 : Rat) / 10
  | none => (8 : Rat) / 10

/-- Total byte size of a list of directory entries. -/
def sumSizes (l : List CacheDirEnt) : Nat := (l.map (·.size)).sum

/-- Age test of phase 1 (line 522): `now - timestamp > maxAge`. -/
def isExpired (cfg : CleanupConfig) (now : Int) (e : CacheDirEnt) : Bool :=
  cfg.maxAge < now - effTimestamp e

/-- Phase-2 loop (lines 545-557): walk the oldest-first list; stop when the
running total is at or below the target; skip a locked entry (the in-loop
double check of line 548); otherwise delete and subtract its size.
Returns the deleted ids in deletion order and the final running total. -/
def evictOldest (locked : List Nat) (target : Rat) :
    List CacheDirEnt → Int → List Nat × Int
  | [], total => ([], total)
  | e :: rest, total =>
    if (total : Rat) ≤ target then ([], total)
    else if locked.contains e.id then evictOldest locked target rest total
    else
      let r := evictOldest locked target rest (total - e.size)
      (e.id :: r.1, r.2)

/-- Result of one sweep: deleted track ids (phase-1 deletions first, each
phase in its deletion order) and the final tracked total. -/
structure CleanupResult where
  deletedIds : List Nat
  finalTotal : Int
  deriving Repr, DecidableEq

/-- The collection scan (lines 479-514): every directory not currently in
`generatingLocks`, with its size added to the tracked total. -/
def cleanupCollected (locked : List Nat) (dirs : List CacheDirEnt) : List CacheDirEnt :=
  dirs.filter fun e => !(locked.contains e.id)

/-- The phase-1 deletions: collected entries older than max age. -/
def cleanupExpired (cfg : CleanupConfig) (now : Int) (locked : List Nat)
    (dirs : List CacheDirEnt) : List CacheDirEnt :=
  (cleanupCollected locked dirs).filter (isExpired cfg now)

/-- The collected entries surviving phase 1 (those `existsSync` still finds
at line 542). -/
def cleanupSurvivors (cfg : CleanupConfig) (now : Int) (locked : List Nat)
    (dirs : List CacheDirEnt) : List CacheDirEnt :=
  (cleanupCollected locked dirs).filter fun e => !(isExpired cfg now e)

/-- The tracked total after phase 1 (line 527 subtractions applied to the
line 512 sum). -/
def cleanupTotalAfterExpiry (cfg : CleanupConfig) (now : Int) (locked : List Nat)
    (dirs : List CacheDirEnt) : Int :=
  (sumSizes (cleanupCollected locked dirs) : Int) -
    sumSizes (cleanupExpired cfg now locked dirs)

/-- The phase-2 walk order (line 541-543): survivors sorted by effective
timestamp ascending (`Array.prototype.sort` with a numeric comparator is
stable, as is insertion sort). -/
def cleanupSorted (cfg : CleanupConfig) (now : Int) (locked : List Nat)
    (dirs : List CacheDirEnt) : List CacheDirEnt :=
  (cleanupSurvivors cfg now locked dirs).insertionSort
    fun a b => effTimestamp a ≤ effTimestamp b

/-- `cleanupCache` (lines 475-568): delete expired unlocked directories,
then, if the tracked total still exceeds `maxSize`, delete oldest-first
down to `maxSize * cleanupToRatio`. -/
def cleanupCache (cfg : CleanupConfig) (now : Int) (locked : List Nat)
    (dirs : List CacheDirEnt) : CleanupResult :=
  let expired := cleanupExpired cfg now locked dirs
  let total1 := cleanupTotalAfterExpiry cfg now locked dirs
  if (cfg.maxSize : Int) < total1 then
    let target : Rat := (cfg.maxSize : Rat) * cfg.cleanupToRatio
    let r := evictOldest locked target (cleanupSorted cfg now locked dirs) total1
    { deletedIds := expired.map (·.id) ++ r.1, finalTotal := r.2 }
  else
    { deletedIds := expired.map (·.id), finalTotal := total1 }

/-! ## In-flight deduplication at the segment endpoint (part_004
lines 1279-1353 with `generatingLocks`, lines 271-272)

A cooperative-interleaving model of several concurrent segment requests for
the same uncached track.  Each handler runs the cache-miss path: it tests
`generatingLocks.has(lockKey)` synchronously; a handler that sees the lock
awaits the stored promise (joins); a handler that does not suspends in
`await netease.getSongUrl(...)` (line 1307) and only *after* that await
resumes does it call `generateSongSegments` and install the lock in the
same turn (lines 1328-1331).  The owner deletes the lock when its
generation settles (lines 1335/1351). -/

/-- Phase of one request handler. -/
inductive ReqPhase where
  | checking
  | fetchingUrl
  | joining
  | generating
  | doneOwner
  | doneJoiner
  deriving Repr, DecidableEq

/-- Shared system state: per-handler phases, whether `generatingLocks` holds
an entry for the track, and how many `generateSongSegments` invocations
have been started. -/
structure SegSystem where
  handlers : List ReqPhase
  lockHeld : Bool
  started : Nat
  deriving Repr, DecidableEq

/-- One scheduler turn of handler `i` (a no-op for an out-of-range index, a
finished handler, or a joiner whose awaited promise has not settled). -/
def stepHandler (sys : SegSystem) (i : Nat) : SegSystem :=
  match sys.handlers[i]? with
  | none => sys
  | some ph =>
    match ph with
    | .checking =>
      if sys.lockHeld then { sys with handlers := sys.handlers.set i .joining }
      else { sys with handlers := sys.handlers.set i .fetchingUrl }
    | .fetchingUrl =>
      { sys with handlers := sys.handlers.set i .generating,
                 lockHeld := true, started := sys.started + 1 }
    | .generating =>
      { sys with handlers := sys.handlers.set i .doneOwner, lockHeld := false }
    | .joining =>
      if sys.lockHeld then sys
      else { sys with handlers := sys.handlers.set i .doneJoiner }
    | .doneOwner => sys
    | .doneJoiner => sys

/-- Run a schedule (a list of handler indices, each naming whose turn it
is). -/
def runSchedule (sys : SegSystem) (sched : List Nat) : SegSystem :=
  sched.foldl stepHandler sys

/-- `n` concurrent requests for the same uncached track, none yet begun;
no lock held, no transcode started. -/
def initSegSystem (n : Nat) : SegSystem :=
  { handlers := List.replicate n .checking, lockHeld := false, started := 0 }

/-- Handlers that have invoked `generateSongSegments` themselves. -/
def isOwnerPhase : ReqPhase → Bool
  | .generating => true
  | .doneOwner => true
  | _ => false

/-! ## Concrete instances used by counterexamples and witnesses -/

/-- A manifest that matches the current configuration, fresh, one segment. -/
def tinySegInfo : SongInfo :=
  { version := 2, video := some (1920, 1080), timestamp := 0,
    segmentCount := 1, segmentDurations := [10] }

/-- A track directory whose manifest is valid and whose single segment file
exists but is only 10 bytes (far below the 1024-byte minimum of
`isSegmentValid`). -/
def tinySegDir : TrackDir := { info := some (some tinySegInfo), segs := [(0, 10)] }

/-- A fully healthy cached track: valid fresh manifest, two segments, both
well above the minimum size. -/
def healthyInfo : SongInfo :=
  { version := 2, video := some (1920, 1080), timestamp := 0,
    segmentCount := 2, segmentDurations := [10, 10] }

/-- Directory of `healthyInfo`. -/
def healthyDir : TrackDir := { info := some (some healthyInfo), segs := [(0, 500000), (1, 400000)] }

/-- Cached metadata carrying a stored duration of `0` (a parsed
`#EXTINF:0` line): the builder's `|| segmentDuration` fallback replaces it. -/
def zeroDurationInfo : SongInfo :=
  { version := 2, video := some (1920, 1080), timestamp := 0,
    segmentCount := 1, segmentDurations := [0] }

/-- A track with cached durations `[10, 10, 3.5]`. -/
def cachedSong350 : SongRef :=
  { id := 42, duration := 235 / 10,
    cachedInfo := some
      { version := 2, video := some (1920, 1080), timestamp := 0,
        segmentCount := 3, segmentDurations := [10, 10, 7 / 2] } }

/-- An uncached track of duration 23 s. -/
def uncachedSong23 : SongRef := { id := 43, duration := 23, cachedInfo := none }

/-- A concrete allow-list: exactly host `1` is allowed. -/
def allowOnlyHost1 : Nat → Bool := fun h => h == 1

/-- An allowed URL. -/
def urlHost1 : DlUrl := { protocol := .https, host := 1 }

/-- A URL on a host missing from the allow-list. -/
def urlHost99 : DlUrl := { protocol := .https, host := 99 }

/-- A network in which the allowed host answers with a redirect to the
non-allow-listed host, which would answer 200. -/
def redirectingNet : DlUrl → DlResponse := fun u =>
  if u.host = 1 then .redirect (some (some urlHost99)) else .ok none [5]

/-- A network in which the allowed host declares `Content-Length` 500. -/
def bigHeaderNet : DlUrl → DlResponse := fun _ => .ok (some 500) [1]

/-- Concrete sweep configuration: 100 ms max age, 10-byte cap, ratio 0.8. -/
def sweepCfg : CleanupConfig := { maxAge := 100, maxSize := 10, cleanupToRatio := 8 / 10 }

/-- Concrete directory listing for the sweep: track 5 (locked, expired),
track 77 (expired), tracks 8 and 9 (fresh but together over the cap). -/
def sweepDirs : List CacheDirEnt :=
  [ { id := 5, size := 30, mtime := 0, infoTimestamp := none },
    { id := 77, size := 40, mtime := 0, infoTimestamp := some 100 },
    { id := 8, size := 9, mtime := 0, infoTimestamp := some 950 },
    { id := 9, size := 9, mtime := 0, infoTimestamp := some 960 } ]

end MusicForUrl

namespace MusicForUrl

/-! # Theorems -/

/-! ## C2 — job admission controller -/

/-- **C2**: `acquire()` grants immediately (incrementing the running count)
iff fewer than `max` jobs run; with `max` running and the wait queue at its
bound it rejects without queuing (state unchanged); otherwise it enqueues
the caller at the tail; `release()` hands the freed slot to the oldest
waiter (the queue head) in FIFO order; and concretely, with
`maxConcurrentJobs = 2` and `maxQueueSize = 0`, a third simultaneous
acquire is rejected, not queued. -/
theorem semaphore_admission_spec (s : Semaphore) (w : Nat) :
    ((s.acquire w).1 = .granted ↔ s.current < (s.max : Int)) ∧
    ((s.acquire w).1 = .granted → (s.acquire w).2 =
      { s with current := s.current + 1 }) ∧
    ((s.acquire w).1 = .rejected ↔
      ((s.max : Int) ≤ s.current ∧ s.maxQueueSize ≤ s.queue.length)) ∧
    ((s.acquire w).1 = .rejected → (s.acquire w).2 = s) ∧
    ((s.acquire w).1 = .enqueued → (s.acquire w).2 =
      { s with queue := s.queue ++ [w] }) ∧
    (∀ w' rest, s.queue = w' :: rest → s.current ≤ (s.max : Int) →
      s.release = (some w', { s with queue := rest })) ∧
    ((((Semaphore.mk 2 0 0 []).acquire 10).2.acquire 11).2.acquire 12 =
      (.rejected, Semaphore.mk 2 0 2 [])) := by
  refine ⟨?_, ?_, ?_, ?_, ?_, ?_, by decide⟩
  · unfold Semaphore.acquire
    split
    · simp_all
    · split <;> simp_all
  · unfold Semaphore.acquire
    split
    · simp
    · split <;> simp
  · unfold Semaphore.acquire
    split
    · simp_all
    · split <;> simp_all
  · unfold Semaphore.acquire
    split
    · simp
    · split <;> simp
  · unfold Semaphore.acquire
    split
    · simp
    · split <;> simp
  · intro w' rest hq hle
    unfold Semaphore.release
    simp only [hq]
    have : s.current - 1 < (s.max : Int) := by omega
    simp [this]

/-- Witness for `semaphore_admission_spec`: a full semaphore with a waiter
queued releases to that oldest waiter. -/
theorem semaphore_admission_spec_witness :
    (Semaphore.mk 2 5 2 [7, 8]).release = (some 7, Semaphore.mk 2 5 2 [8]) := by
  have h := (semaphore_admission_spec (Semaphore.mk 2 5 2 [7, 8]) 0).2.2.2.2.2.1
  exact h 7 [8] rfl (by decide)

/-! ## C9 — busy rejection is a distinct 503 -/

/-- **C9**: when the admission semaphore rejects (max running and queue
full), the segment endpoint answers 503 with a JSON body carrying the
current running and waiting counters; every other failure answers 500
with no counters — the two are distinguishable. -/
theorem segment_busy_503_spec (sem : Semaphore) (w : Nat) :
    (((sem.max : Int) ≤ sem.current → sem.maxQueueSize ≤ sem.queue.length →
      segmentMissErrorOutcome sem w = some
        { status := 503, err := .busyRetryLater,
          queueInfo := some
            { running := sem.current, waiting := sem.queue.length,
              maxConcurrent := sem.max } })) ∧
    (∀ e, e ≠ JobError.busyRetryLater →
      segmentErrorResponse sem e = { status := 500, err := e, queueInfo := none }) := by
  constructor
  · intro h1 h2
    have hrej : sem.acquire w = (.rejected, sem) := by
      unfold Semaphore.acquire
      have hnl : ¬ sem.current < (sem.max : Int) := by omega
      simp [hnl, h2]
    unfold segmentMissErrorOutcome generateAdmission
    rw [hrej]
    simp [segmentErrorResponse]
  · intro e he
    simp [segmentErrorResponse, he]

/-- Witness for `segment_busy_503_spec`: two jobs running, queue bound 0 —
the third request is answered 503 with `running = 2`, `waiting = 0`; an
unrelated failure is answered 500. -/
theorem segment_busy_503_spec_witness :
    segmentMissErrorOutcome (Semaphore.mk 2 0 2 []) 3 = some
      { status := 503, err := .busyRetryLater,
        queueInfo := some { running := 2, waiting := 0, maxConcurrent := 2 } } ∧
    segmentErrorResponse (Semaphore.mk 2 0 2 []) (.otherFailure 0) =
      { status := 500, err := .otherFailure 0, queueInfo := none } :=
  ⟨(segment_busy_503_spec (Semaphore.mk 2 0 2 []) 3).1 (by decide) (by decide),
   (segment_busy_503_spec (Semaphore.mk 2 0 2 []) 3).2 (.otherFailure 0) (by decide)⟩

/-! ## C3 — cache validity predicate -/

/-- **C3 counterexample**: a track directory whose manifest is valid and
whose single referenced segment file exists at only 10 bytes.  The code's
`isSongCached` accepts it (it only tests `fs.existsSync`), while the
claimed predicate — every referenced segment file present *and above a
minimum size* — rejects it, as `isSegmentValid` (where the 1024-byte
minimum actually lives) shows. -/
theorem isSongCached_minsize_cex :
    isSongCached defaultCacheConfig 0 tinySegDir = true ∧
    isValidPerSpec defaultCacheConfig 1024 0 tinySegDir = false ∧
    isSegmentValid tinySegDir 0 = false := by decide

/-- **C3 (amended)**: `isSongCached` returns true iff the manifest is
present and parsable, its format version and output dimensions match the
current configuration, its age does not exceed max-age, and every
referenced segment file is **present** (existence only; the minimum-size
test is performed separately, per segment, by `isSegmentValid`). -/
theorem isSongCached_spec_amended (cfg : CacheConfig) (now : Int) (d : TrackDir) :
    isSongCached cfg now d = true ↔
      ∃ info, d.info = some (some info) ∧
        info.version = cfg.cacheVersion ∧
        info.video = some (cfg.width, cfg.height) ∧
        now - info.timestamp ≤ cfg.maxAge ∧
        ∀ i < info.segmentCount, (d.segSize i).isSome = true := by
  rcases d with ⟨dinfo, segs⟩
  rcases dinfo with _ | di
  · simp [isSongCached]
  rcases di with _ | info
  · simp [isSongCached]
  unfold isSongCached
  dsimp only
  simp only [Option.some.injEq, exists_eq_left']
  rcases hv : info.video with _ | wh
  · simp [hv]
  rcases wh with ⟨w, hh⟩
  dsimp only
  constructor
  · intro h
    split_ifs at h with h1 h2 h3
    push_neg at h2
    refine ⟨not_ne_iff.mp h1, by rw [h2.1, h2.2], by omega, ?_⟩
    intro i hi
    simpa using List.all_eq_true.mp h i (List.mem_range.mpr hi)
  · rintro ⟨hver, hvid, hage, hsegs⟩
    have hw : w = cfg.width ∧ hh = cfg.height := by
      simpa [Prod.ext_iff] using hvid
    rw [if_neg (not_ne_iff.mpr hver), if_neg (by simp [hw.1, hw.2]),
      if_neg (by omega : ¬ cfg.maxAge < now - info.timestamp)]
    exact List.all_eq_true.mpr fun i hi => by
      simpa using hsegs i (List.mem_range.mp hi)

/-- Witness for `isSongCached_spec_amended`: a healthy cached track
satisfies the right-hand side, hence `isSongCached` accepts it. -/
theorem isSongCached_spec_amended_witness :
    isSongCached defaultCacheConfig 0 healthyDir = true :=
  (isSongCached_spec_amended defaultCacheConfig 0 healthyDir).mpr
    ⟨healthyInfo, rfl, rfl, rfl, by decide, by decide⟩

/-! ## C8 — preload idempotence for cached tracks -/

/-- **C8**: for a track already valid in the cache, the preload step
reports `cached` (with the manifest's segment count), performs no encoder
invocation, and leaves the track's cache state unchanged; invoked twice in
a row it therefore reports `cached` both times with zero invocations. -/
theorem preload_cached_idempotent (cfg : CacheConfig) (now : Int) (audioUrl : Option Nat)
    (gen : TrackDir → Except JobError (TrackDir × Nat)) (d : TrackDir)
    (h : isSongCached cfg now d = true) :
    preloadTrack cfg now audioUrl gen d = (.cachedAlready (cachedSegmentCount d), 0, d) ∧
    preloadTrack cfg now audioUrl gen (preloadTrack cfg now audioUrl gen d).2.2 =
      (.cachedAlready (cachedSegmentCount d), 0, d) := by
  have h1 : preloadTrack cfg now audioUrl gen d =
      (.cachedAlready (cachedSegmentCount d), 0, d) := by
    unfold preloadTrack
    simp [h]
  refine ⟨h1, ?_⟩
  rw [h1]
  exact h1

/-- Witness for `preload_cached_idempotent`: preloading the healthy cached
track reports `cached` with 2 segments, no invocation, state unchanged. -/
theorem preload_cached_idempotent_witness :
    preloadTrack defaultCacheConfig 0 none (fun _ => .error (.otherFailure 0)) healthyDir =
      (.cachedAlready 2, 0, healthyDir) :=
  (preload_cached_idempotent defaultCacheConfig 0 none
    (fun _ => .error (.otherFailure 0)) healthyDir (by decide)).1

/-! ## C4 / C10 — playlist manifest builder

Helper lemmas about `entryDurations`. -/

/-- Extracting the durations of a block of `extinf` entries built from a
duration function. -/
theorem entryDurations_map_extinf (f : Nat → Rat) (sid : Nat) (l : List Nat) :
    entryDurations (l.map fun i => M3U8Entry.extinf (f i) sid i) = l.map f := by
  induction l with
  | nil => rfl
  | cons a t ih =>
    simp only [List.map_cons, entryDurations, List.filterMap_cons] at ih ⊢
    rw [ih]

/-- A `PROGRAM-DATE-TIME` line contributes no duration. -/
theorem entryDurations_pdt (l : List M3U8Entry) :
    entryDurations (M3U8Entry.programDateTime :: l) = entryDurations l := by
  simp [entryDurations]

/-- Every track block mapped from a positive enumeration index carries its
leading discontinuity. -/
theorem enumFrom_pos_disc (segDur : Rat) (k : Nat) (hk : 0 < k) (l : List SongRef) :
    (l.enumFrom k).map
        (fun p => (if 0 < p.1 then [M3U8Entry.discontinuity] else []) ++
          trackEntries segDur p.2)
      = l.map fun t => M3U8Entry.discontinuity :: trackEntries segDur t := by
  induction l generalizing k with
  | nil => rfl
  | cons a t ih =>
    simp only [List.enumFrom_cons, List.map_cons]
    rw [ih (k + 1) (Nat.succ_pos k)]
    simp [hk]

/-- **C4 counterexample**: cached segment metadata storing the duration
list `[0]` (a parsed `#EXTINF:0` line, count 1).  The builder emits the
entry with duration 10 — the `|| segmentDuration` fallback — not the
stored exact duration `0`, so "one entry per real segment *with its exact
duration*" fails on this metadata. -/
theorem manifest_exact_duration_cex :
    entryDurations (cachedEntries 10 7 zeroDurationInfo) = [10] ∧
    zeroDurationInfo.segmentCount = 1 ∧
    zeroDurationInfo.segmentDurations = [0] ∧
    entryDurations (cachedEntries 10 7 zeroDurationInfo) ≠ zeroDurationInfo.segmentDurations := by
  have h : entryDurations (cachedEntries 10 7 zeroDurationInfo) = [10] := by
    unfold cachedEntries zeroDurationInfo
    norm_num [List.range_succ, entryDurations, List.filterMap_cons]
  refine ⟨h, rfl, rfl, ?_⟩
  rw [h]
  unfold zeroDurationInfo
  norm_num

/-- **C4 (amended)**: for cached segment metadata the builder emits exactly
`segmentCount` entries; each entry's duration is the stored duration when
that stored value is present and nonzero (so a well-formed duration list
is reproduced exactly — `[10, 10, 3.5]` yields exactly those three
entries), while a zero/missing stored duration falls back to the
configured segment duration.  An uncached track of duration 23 yields
entries `[10, 10, 3]`, and in general `ceil(duration / segmentDuration)`
estimated entries.  A discontinuity marker separates consecutive tracks. -/
theorem manifest_builder_amended :
    (∀ (segDur : Rat) (sid : Nat) (info : SongInfo),
      info.segmentDurations.length = info.segmentCount →
      (∀ d ∈ info.segmentDurations, d ≠ 0) →
      entryDurations (cachedEntries segDur sid info) = info.segmentDurations) ∧
    entryDurations (trackEntries 10 cachedSong350) = [10, 10, 7 / 2] ∧
    entryDurations (trackEntries 10 uncachedSong23) = [10, 10, 3] ∧
    (∀ (segDur : Rat) (sid : Nat) (dur : Rat),
      (entryDurations (estimatedEntries segDur sid dur)).length =
        (⌈dur / segDur⌉ : Int).toNat) ∧
    (∀ (segDur : Rat) (s : SongRef) (rest : List SongRef),
      playlistEntries segDur (s :: rest) =
        trackEntries segDur s ++
          (rest.map fun t => M3U8Entry.discontinuity :: trackEntries segDur t).flatten) := by
  refine ⟨?_, ?_, ?_, ?_, ?_⟩
  · intro segDur sid info hlen hnz
    unfold cachedEntries
    rw [entryDurations_map_extinf]
    apply List.ext_getElem
    · simp [hlen]
    · intro i h1 h2
      simp only [List.getElem_map, List.getElem_range]
      rw [List.getD_eq_getElem info.segmentDurations 0 h2,
        if_neg (hnz _ (List.getElem_mem h2))]
  · unfold trackEntries cachedSong350
    dsimp only
    rw [entryDurations_pdt]
    unfold cachedEntries
    dsimp only
    norm_num [List.range_succ, entryDurations, List.filterMap_cons]
  · unfold trackEntries uncachedSong23
    dsimp only
    rw [if_neg (by norm_num : ¬ (23 : Rat) = 0)]
    have hc : (⌈(23 : Rat) / 10⌉ : Int) = 3 := by
      rw [Int.ceil_eq_iff]; norm_num
    have h0 : (0 : Rat) ≤ 23 / 10 := by norm_num
    have hf : ⌊(23 : Rat) / 10⌋ = 2 := by
      rw [Int.floor_eq_iff]; norm_num
    have hm : jsMod 23 10 = 3 := by
      rw [jsMod, ratTrunc, if_pos h0, hf]; norm_num
    simp [estimatedEntries, entryDurations, hc, hm, List.range_succ, List.filterMap_cons]
  · intro segDur sid dur
    unfold estimatedEntries
    rw [entryDurations_map_extinf]
    simp
  · intro segDur s rest
    unfold playlistEntries
    rw [List.enum_cons, List.map_cons, List.flatten_cons,
      enumFrom_pos_disc segDur 1 (by omega) rest]
    simp

/-- Witness for `manifest_builder_amended`: the healthy manifest's
well-formed duration list `[10, 10]` is reproduced exactly. -/
theorem manifest_builder_amended_witness :
    entryDurations (cachedEntries 10 9 healthyInfo) = [10, 10] :=
  manifest_builder_amended.1 10 9 healthyInfo rfl
    (by intro d hd; fin_cases hd <;> norm_num)

/-- **C10**: an uncached track whose duration is a positive exact multiple
`k` of the segment duration yields exactly `k` estimated entries, every one
(in particular the last) equal to the full segment duration — the
remainder-zero case of `(duration % segmentDuration) || segmentDuration`
falls back to the segment duration instead of emitting 0. -/
theorem estimated_exact_multiple_spec (k : Nat) (sid : Nat) (hk : 0 < k) :
    entryDurations
      (trackEntries 10 { id := sid, duration := (k : Rat) * 10, cachedInfo := none })
      = List.replicate k 10 := by
  have hkq : (0 : Rat) < (k : Rat) := by exact_mod_cast hk
  have hne : ((k : Rat) * 10) ≠ 0 := by positivity
  have hdiv : ((k : Rat) * 10) / 10 = (k : Rat) :=
    mul_div_cancel_right₀ _ (by norm_num)
  have hceil : (⌈((k : Rat) * 10) / 10⌉ : Int) = (k : Int) := by
    rw [hdiv]; exact_mod_cast Int.ceil_natCast k
  have htrunc : ratTrunc (((k : Rat) * 10) / 10) = (k : Int) := by
    rw [hdiv]; unfold ratTrunc; rw [if_pos (le_of_lt hkq)]
    exact_mod_cast Int.floor_natCast k
  have hmod : jsMod ((k : Rat) * 10) 10 = 0 := by
    unfold jsMod; rw [htrunc]; push_cast; ring
  unfold trackEntries
  dsimp only
  rw [if_neg hne]
  unfold estimatedEntries
  rw [hceil, hmod]
  have htn : ((k : Int)).toNat = k := Int.toNat_natCast k
  rw [htn]
  have hfun : (fun i => M3U8Entry.extinf
      (if i + 1 = k then if (0 : Rat) = 0 then 10 else 0 else 10) sid i)
      = fun i => M3U8Entry.extinf 10 sid i := by
    funext i; norm_num
  rw [hfun, entryDurations_map_extinf (fun _ => 10) sid (List.range k)]
  simp [List.map_const']

/-- Witness for `estimated_exact_multiple_spec`: duration 20 (= 2 × 10)
yields exactly 2 entries `[10, 10]`, the last one 10, not 0. -/
theorem estimated_exact_multiple_spec_witness :
    entryDurations
      (trackEntries 10 { id := 0, duration := ((2 : Nat) : Rat) * 10, cachedInfo := none })
      = List.replicate 2 10 :=
  estimated_exact_multiple_spec 2 0 (by omega)

/-! ## C5 — download fetcher -/

/-- The streamed-body settle leaves a file iff it resolved. -/
theorem dlConsumeBody_fileRemains (maxSize : Nat) (chunks : List Nat) :
    (dlConsumeBody maxSize chunks).fileRemains = (dlConsumeBody maxSize chunks).result.isNone := by
  unfold dlConsumeBody
  rcases hsb : streamBody maxSize chunks 0 with ⟨b, n⟩
  cases b <;> simp

/-- Fuel-indexed form: after any `downloadFile` promise settles, a file
remains at the destination iff the promise resolved. -/
theorem downloadFile_fileRemains (net : DlUrl → DlResponse) (allowHost : Nat → Bool)
    (lim : DlLimits) :
    ∀ (fuel : Nat) (u : Option DlUrl) (rc : Nat), lim.downloadMaxRedirects - rc ≤ fuel →
      (downloadFile net allowHost lim u rc).fileRemains =
        (downloadFile net allowHost lim u rc).result.isNone := by
  intro fuel
  induction fuel with
  | zero =>
    intro u rc hrc
    rw [downloadFile.eq_def]
    have h1 : lim.downloadMaxRedirects ≤ rc := by omega
    simp [h1]
  | succ n ih =>
    intro u rc hrc
    rw [downloadFile.eq_def]
    by_cases h1 : lim.downloadMaxRedirects ≤ rc
    · simp [h1]
    simp only [dif_neg h1]
    by_cases h2 : isDownloadUrlAllowed allowHost u = true
    · simp only [h2, not_true_eq_false, if_false]
      match u with
      | none => simp
      | some uu =>
        dsimp only
        cases hn : net uu with
        | redirect loc =>
          dsimp only
          match loc with
          | none => simp
          | some none => simp
          | some (some ru) =>
            by_cases hr : isDownloadUrlAllowed allowHost (some ru) = true
            · simpa [hr] using ih (some ru) (rc + 1) (by omega)
            · simp [hr]
        | httpStatus code => simp
        | ok cl chunks =>
          dsimp only
          match cl with
          | some m =>
            by_cases hm : m ≠ 0 ∧ lim.downloadMaxSize < m
            · simp [hm]
            · simp [hm, dlConsumeBody_fileRemains]
          | none => simp [dlConsumeBody_fileRemains]
        | timedOut => simp
        | netError => simp
    · simp [h2]

/-- **C5**: a file remains at `destinationPath` iff `downloadFile`
resolved — on every rejection path (invalid/blocked URL, blocked or
excessive redirect, non-200 status, oversized declaration, body overrun,
timeout, network error) no partial file remains; a redirect target that
fails the allow-list re-validation is rejected (with no file left); and a
declared `Content-Length` above the limit is rejected before any body
byte is written. -/
theorem downloadFile_spec (net : DlUrl → DlResponse) (allowHost : Nat → Bool)
    (lim : DlLimits) (u : Option DlUrl) (rc : Nat) :
    ((downloadFile net allowHost lim u rc).fileRemains =
      (downloadFile net allowHost lim u rc).result.isNone) ∧
    (∀ uu ru, u = some uu → rc < lim.downloadMaxRedirects →
      isDownloadUrlAllowed allowHost u = true →
      net uu = .redirect (some (some ru)) →
      isDownloadUrlAllowed allowHost (some ru) = false →
      (downloadFile net allowHost lim u rc).result = some .redirectBlocked ∧
      (downloadFile net allowHost lim u rc).fileRemains = false) ∧
    (∀ uu m chunks, u = some uu → rc < lim.downloadMaxRedirects →
      isDownloadUrlAllowed allowHost u = true →
      net uu = .ok (some m) chunks → m ≠ 0 → lim.downloadMaxSize < m →
      (downloadFile net allowHost lim u rc).result = some (.contentLengthTooLarge m) ∧
      (downloadFile net allowHost lim u rc).bodyBytesWritten = 0) := by
  refine ⟨downloadFile_fileRemains net allowHost lim (lim.downloadMaxRedirects - rc) u rc
    le_rfl, ?_, ?_⟩
  · rintro uu ru rfl hrc hall hnet hblk
    rw [downloadFile.eq_def]
    simp [Nat.not_le.mpr hrc, hall, hnet, hblk]
  · rintro uu m chunks rfl hrc hall hnet hm hsz
    rw [downloadFile.eq_def]
    simp [Nat.not_le.mpr hrc, hall, hnet, hm, hsz]

/-- Witness for `downloadFile_spec`: on the concrete network whose allowed
host redirects to a non-allow-listed host the fetch fails with
`redirectBlocked` and no file; on the network declaring `Content-Length`
500 against limit 100 it fails before writing any body byte. -/
theorem downloadFile_spec_witness :
    (downloadFile redirectingNet allowOnlyHost1
        { downloadMaxSize := 100, downloadMaxRedirects := 5 } (some urlHost1) 0).result =
      some .redirectBlocked ∧
    (downloadFile redirectingNet allowOnlyHost1
        { downloadMaxSize := 100, downloadMaxRedirects := 5 } (some urlHost1) 0).fileRemains =
      false ∧
    (downloadFile bigHeaderNet allowOnlyHost1
        { downloadMaxSize := 100, downloadMaxRedirects := 5 } (some urlHost1) 0).result =
      some (.contentLengthTooLarge 500) ∧
    (downloadFile bigHeaderNet allowOnlyHost1
        { downloadMaxSize := 100, downloadMaxRedirects := 5 } (some urlHost1) 0).bodyBytesWritten
      = 0 := by
  have h1 := (downloadFile_spec redirectingNet allowOnlyHost1
    { downloadMaxSize := 100, downloadMaxRedirects := 5 } (some urlHost1) 0).2.1
    urlHost1 urlHost99 rfl (by decide) (by decide) (by decide) (by decide)
  have h2 := (downloadFile_spec bigHeaderNet allowOnlyHost1
    { downloadMaxSize := 100, downloadMaxRedirects := 5 } (some urlHost1) 0).2.2
    urlHost1 500 [1] rfl (by decide) (by decide) (by decide) (by decide) (by decide)
  exact ⟨h1.1, h1.2, h2.1, h2.2⟩

/-! ## C6 — transcode publish ordering -/

/-- `fs.renameSync` onto a segment path: lookup after an upsert. -/
theorem upsertSeg_lookup (segs : List (Nat × Nat)) (i sz j : Nat) :
    (upsertSeg segs i sz).lookup j = if j = i then some sz else segs.lookup j := by
  induction segs with
  | nil =>
    by_cases h : j = i
    · simp [upsertSeg, List.lookup, h]
    · simp [upsertSeg, List.lookup, h, beq_eq_false_iff_ne.mpr h]
  | cons p rest ih =>
    rcases p with ⟨a, b⟩
    by_cases hai : a = i
    · subst hai
      by_cases h : j = a
      · simp [upsertSeg, List.lookup, h]
      · simp [upsertSeg, List.lookup, h, beq_eq_false_iff_ne.mpr h]
    · by_cases h : j = a
      · subst h
        simp [upsertSeg, hai, List.lookup, if_neg (by omega : ¬ j = i)]
      · simp [upsertSeg, hai, List.lookup, h, beq_eq_false_iff_ne.mpr h, ih]

/-- Publishing a concatenation applies the phases in order. -/
theorem applyPublishOps_append (d : TrackDir) (A B : List PublishOp) :
    applyPublishOps d (A ++ B) = applyPublishOps (applyPublishOps d A) B :=
  List.foldl_append applyPublishOp d A B

/-- The rename loop never touches `info.json`. -/
theorem applyPublishOps_moves_info (d : TrackDir) (f : Nat → Nat) (n : Nat) :
    (applyPublishOps d ((List.range n).map fun i => PublishOp.moveSeg i (f i))).info
      = d.info := by
  induction n with
  | zero => rfl
  | succ n ih =>
    rw [List.range_succ, List.map_append, applyPublishOps_append]
    exact ih

/-- After the rename loop, every segment index below the count of moved
files is present. -/
theorem applyPublishOps_moves_present (d : TrackDir) (f : Nat → Nat) (n : Nat) :
    ∀ j < n,
      ((applyPublishOps d ((List.range n).map fun i => PublishOp.moveSeg i (f i))).segSize
        j).isSome = true := by
  induction n with
  | zero => intro j hj; omega
  | succ n ih =>
    intro j hj
    rw [List.range_succ, List.map_append, applyPublishOps_append]
    simp only [List.map_cons, List.map_nil]
    have hstep :
        (applyPublishOps
          (applyPublishOps d ((List.range n).map fun i => PublishOp.moveSeg i (f i)))
          [PublishOp.moveSeg n (f n)]).segSize j =
        if j = n then some (f n)
        else (applyPublishOps d ((List.range n).map fun i => PublishOp.moveSeg i (f i))).segSize
          j := by
      simp only [applyPublishOps, List.foldl_cons, List.foldl_nil, applyPublishOp,
        TrackDir.segSize]
      exact upsertSeg_lookup _ n (f n) j
    rw [hstep]
    by_cases h : j = n
    · rw [if_pos h]; rfl
    · rw [if_neg h]; exact ih j (by omega)

/-- **C6 (amended)**: the success path of `runFFmpegTranscode` writes
`info.json` only after every produced segment file has been moved into the
cache directory — the write is the last operation of the publish sequence,
everything before it is a segment move — so, starting from a directory
with no manifest, after any prefix of the publish sequence: if the
manifest exists, every segment file it references exists.  (No minimum
*size* is enforced at publish time: the moved files keep whatever size the
encoder produced — see the counterexample.) -/
theorem publish_order_amended (cfg : CacheConfig) (now : Int) (sizes : List Nat)
    (durs : List Rat) (d0 : TrackDir) (h0 : d0.info = none) :
    (∀ k info,
      (applyPublishOps d0 ((publishOps cfg now sizes durs).take k)).info = some (some info) →
      ∀ i < info.segmentCount,
        ((applyPublishOps d0 ((publishOps cfg now sizes durs).take k)).segSize i).isSome
          = true) ∧
    (∃ info, (publishOps cfg now sizes durs).getLast? = some (.writeInfo info) ∧
      info.segmentCount = sizes.length) ∧
    (∀ op ∈ (publishOps cfg now sizes durs).dropLast, ∃ i sz, op = .moveSeg i sz) := by
  refine ⟨?_, ?_, ?_⟩
  · intro k info hinfo i hi
    by_cases hk : k ≤ sizes.length
    · exfalso
      have htake : (publishOps cfg now sizes durs).take k =
          (List.range (min k sizes.length)).map
            fun i => PublishOp.moveSeg i (sizes.getD i 0) := by
        unfold publishOps
        rw [List.take_append_of_le_length (by simp [hk]), ← List.map_take, List.take_range]
      rw [htake, applyPublishOps_moves_info, h0] at hinfo
      exact Option.noConfusion hinfo
    · push_neg at hk
      have htake : (publishOps cfg now sizes durs).take k = publishOps cfg now sizes durs := by
        apply List.take_of_length_le
        unfold publishOps
        simp only [List.length_append, List.length_map, List.length_range,
          List.length_singleton]
        omega
      rw [htake] at hinfo ⊢
      unfold publishOps at hinfo ⊢
      rw [applyPublishOps_append] at hinfo ⊢
      simp only [applyPublishOps, List.foldl_cons, List.foldl_nil, applyPublishOp] at hinfo ⊢
      have h2 := Option.some.inj (Option.some.inj hinfo)
      have hw : info.segmentCount = sizes.length := by rw [← h2]
      exact applyPublishOps_moves_present d0 (fun i => sizes.getD i 0) sizes.length i
        (by omega)
  · refine ⟨SongInfo.mk cfg.cacheVersion (some (cfg.width, cfg.height)) now
      sizes.length durs, ?_, rfl⟩
    unfold publishOps
    rw [List.getLast?_concat]
  · intro op hop
    unfold publishOps at hop
    rw [List.dropLast_concat] at hop
    rcases List.mem_map.mp hop with ⟨i, _, rfl⟩
    exact ⟨i, sizes.getD i 0, rfl⟩

/-- **C6 counterexample**: publishing a single encoder-produced segment of
10 bytes yields a manifest whose referenced segment exists but is *not*
non-trivially sized (`isSegmentValid` rejects it), refuting the
"…and are non-trivially sized" part of the claimed invariant. -/
theorem publish_minsize_cex :
    (applyPublishOps emptyTrackDir (publishOps defaultCacheConfig 0 [10] [10])).info.isSome
      = true ∧
    cachedSegmentCount (applyPublishOps emptyTrackDir (publishOps defaultCacheConfig 0 [10] [10]))
      = 1 ∧
    (applyPublishOps emptyTrackDir (publishOps defaultCacheConfig 0 [10] [10])).segSize 0
      = some 10 ∧
    isSegmentValid (applyPublishOps emptyTrackDir (publishOps defaultCacheConfig 0 [10] [10])) 0
      = false := by
  refine ⟨by decide, by decide, by decide, by decide⟩

/-- Witness for `publish_order_amended`: after the full publish sequence of
one segment, the manifest (= `tinySegInfo`) references segment 0 and it is
present. -/
theorem publish_order_amended_witness :
    ((applyPublishOps emptyTrackDir
      ((publishOps defaultCacheConfig 0 [10] [10]).take 2)).segSize 0).isSome = true :=
  (publish_order_amended defaultCacheConfig 0 [10] [10] emptyTrackDir rfl).1 2 tinySegInfo
    (by decide) 0 (by decide)

/-! ## C7 — cache eviction sweep -/

/-- Every id deleted by the phase-2 walk names an entry of the walked list
that is not locked. -/
theorem evictOldest_ids (locked : List Nat) (target : Rat) :
    ∀ (l : List CacheDirEnt) (t : Int) (i : Nat),
      i ∈ (evictOldest locked target l t).1 →
      (∃ e ∈ l, e.id = i) ∧ locked.contains i = false := by
  intro l
  induction l with
  | nil => intro t i h; simp [evictOldest] at h
  | cons e rest ih =>
    intro t i h
    by_cases h1 : (t : Rat) ≤ target
    · simp [evictOldest, h1] at h
    by_cases h2 : locked.contains e.id = true
    · simp only [evictOldest, if_neg h1, if_pos h2] at h
      obtain ⟨⟨e', he', hid⟩, hc⟩ := ih _ i h
      exact ⟨⟨e', List.mem_cons_of_mem e he', hid⟩, hc⟩
    · simp only [evictOldest, if_neg h1, if_neg h2] at h
      rcases List.mem_cons.mp h with hi | hi
      · subst hi
        exact ⟨⟨e, List.mem_cons_self e rest, rfl⟩, by simpa using h2⟩
      · obtain ⟨⟨e', he', hid⟩, hc⟩ := ih _ i hi
        exact ⟨⟨e', List.mem_cons_of_mem e he', hid⟩, hc⟩

/-- On a list with no locked entries, the phase-2 deletions are an
oldest-first prefix of the walked list. -/
theorem evictOldest_prefix (locked : List Nat) (target : Rat) :
    ∀ (l : List CacheDirEnt) (t : Int),
      (∀ e ∈ l, locked.contains e.id = false) →
      ∃ k, (evictOldest locked target l t).1 = (l.map (·.id)).take k := by
  intro l
  induction l with
  | nil => intro t _; exact ⟨0, by simp [evictOldest]⟩
  | cons e rest ih =>
    intro t hunlocked
    by_cases h1 : (t : Rat) ≤ target
    · exact ⟨0, by simp [evictOldest, h1]⟩
    have h2 : ¬ locked.contains e.id = true := by
      rw [hunlocked e (List.mem_cons_self e rest)]
      simp
    obtain ⟨k, hk⟩ := ih (t - e.size) fun e' he' =>
      hunlocked e' (List.mem_cons_of_mem e he')
    refine ⟨k + 1, ?_⟩
    simp only [evictOldest, if_neg h1, if_neg h2, List.map_cons, List.take_succ_cons]
    rw [hk]

/-- On a list with no locked entries, the phase-2 walk either reaches the
target or deletes everything (leaving `t` minus the whole list's size). -/
theorem evictOldest_total (locked : List Nat) (target : Rat) :
    ∀ (l : List CacheDirEnt) (t : Int),
      (∀ e ∈ l, locked.contains e.id = false) →
      (((evictOldest locked target l t).2 : Rat) ≤ target ∨
        (evictOldest locked target l t).2 = t - (sumSizes l : Int)) := by
  intro l
  induction l with
  | nil => intro t _; right; simp [evictOldest, sumSizes]
  | cons e rest ih =>
    intro t hunlocked
    by_cases h1 : (t : Rat) ≤ target
    · left
      simp only [evictOldest, if_pos h1]
      exact h1
    have h2 : ¬ locked.contains e.id = true := by
      rw [hunlocked e (List.mem_cons_self e rest)]
      simp
    have := ih (t - e.size) fun e' he' => hunlocked e' (List.mem_cons_of_mem e he')
    rcases this with hle | heq
    · left
      simp only [evictOldest, if_neg h1, if_neg h2]
      exact hle
    · right
      simp only [evictOldest, if_neg h1, if_neg h2]
      rw [heq]
      simp only [sumSizes, List.map_cons, List.sum_cons]
      push_cast
      ring

/-- Partitioning a directory listing by a predicate splits its total size. -/
theorem sumSizes_filter_split (p : CacheDirEnt → Bool) (l : List CacheDirEnt) :
    sumSizes (l.filter p) + sumSizes (l.filter fun e => !(p e)) = sumSizes l := by
  induction l with
  | nil => rfl
  | cons e rest ih =>
    by_cases h : p e <;> simp [sumSizes, List.filter_cons, h] at ih ⊢ <;> omega

/-- Collected entries are never locked. -/
theorem cleanupCollected_unlocked (locked : List Nat) (dirs : List CacheDirEnt) :
    ∀ e ∈ cleanupCollected locked dirs, e.id ∉ locked := by
  intro e he
  have := (List.mem_filter.mp he).2
  simpa using this

/-- Bool `contains` bridge, one direction. -/
theorem not_mem_of_contains_false {l : List Nat} {a : Nat} (h : l.contains a = false) :
    a ∉ l := by
  intro hm
  have hc : l.contains a = true := List.elem_iff.mpr hm
  rw [hc] at h
  exact Bool.noConfusion h

/-- Bool `contains` bridge, other direction. -/
theorem contains_false_of_not_mem {l : List Nat} {a : Nat} (h : a ∉ l) :
    l.contains a = false := by
  cases hc : l.contains a
  · rfl
  · exact absurd (List.elem_iff.mp hc) h

/-- **C7**: the sweep (i) never deletes a directory whose track holds an
in-flight lock — locked directories are skipped at collection and again in
the phase-2 loop, and the sweep is synchronous so the lock set cannot
change mid-run; (ii) deletes every collected directory older than max-age
in phase 1; (iii) whenever the tracked total still exceeds the cap after
phase 1 (the tracked total excludes locked directories, which are
invisible to the sweep), the final total is brought to at most
`maxSize * cleanupToRatio` (the walk can always reach the target because,
at worst, it deletes every counted directory); (iv) phase-2 deletions are
an oldest-effective-timestamp-first prefix of the surviving entries; and
(v) the configured ratio always lies in (0, 1) so the target is
well-formed. -/
theorem cleanupCache_spec (cfg : CleanupConfig) (now : Int) (locked : List Nat)
    (dirs : List CacheDirEnt) :
    (∀ i ∈ (cleanupCache cfg now locked dirs).deletedIds, i ∉ locked) ∧
    (∀ e ∈ dirs, e.id ∉ locked → isExpired cfg now e = true →
      e.id ∈ (cleanupCache cfg now locked dirs).deletedIds) ∧
    ((cfg.maxSize : Int) < cleanupTotalAfterExpiry cfg now locked dirs →
      0 ≤ cfg.cleanupToRatio →
      ((cleanupCache cfg now locked dirs).finalTotal : Rat) ≤
        (cfg.maxSize : Rat) * cfg.cleanupToRatio) ∧
    (∃ k, (cleanupCache cfg now locked dirs).deletedIds =
      (cleanupExpired cfg now locked dirs).map (·.id) ++
        ((cleanupSorted cfg now locked dirs).map (·.id)).take k) ∧
    (∀ env, 0 < mkCleanupToRatio env ∧ mkCleanupToRatio env < 1) := by
  have hsortcontains : ∀ e ∈ cleanupSorted cfg now locked dirs,
      locked.contains e.id = false := by
    intro e he
    have hsurv : e ∈ cleanupSurvivors cfg now locked dirs :=
      ((List.perm_insertionSort _ _).mem_iff).mp he
    have hcol : e ∈ cleanupCollected locked dirs := (List.mem_filter.mp hsurv).1
    exact contains_false_of_not_mem (cleanupCollected_unlocked locked dirs e hcol)
  refine ⟨?_, ?_, ?_, ?_, ?_⟩
  · intro i hi
    unfold cleanupCache at hi
    by_cases hb : (cfg.maxSize : Int) < cleanupTotalAfterExpiry cfg now locked dirs
    · rw [if_pos hb] at hi
      dsimp only at hi
      rcases List.mem_append.mp hi with hi | hi
      · obtain ⟨e, he, rfl⟩ := List.mem_map.mp hi
        exact cleanupCollected_unlocked locked dirs e (List.mem_filter.mp he).1
      · exact not_mem_of_contains_false (evictOldest_ids locked _ _ _ i hi).2
    · rw [if_neg hb] at hi
      dsimp only at hi
      obtain ⟨e, he, rfl⟩ := List.mem_map.mp hi
      exact cleanupCollected_unlocked locked dirs e (List.mem_filter.mp he).1
  · intro e he hnl hexp
    have hcol : e ∈ cleanupCollected locked dirs := by
      unfold cleanupCollected
      refine List.mem_filter.mpr ⟨he, ?_⟩
      rw [contains_false_of_not_mem hnl]
      rfl
    have hexpm : e ∈ cleanupExpired cfg now locked dirs :=
      List.mem_filter.mpr ⟨hcol, hexp⟩
    have hin : e.id ∈ (cleanupExpired cfg now locked dirs).map (·.id) :=
      List.mem_map.mpr ⟨e, hexpm, rfl⟩
    unfold cleanupCache
    by_cases hb : (cfg.maxSize : Int) < cleanupTotalAfterExpiry cfg now locked dirs
    · rw [if_pos hb]
      exact List.mem_append.mpr (Or.inl hin)
    · rw [if_neg hb]
      exact hin
  · intro hb hr
    unfold cleanupCache
    rw [if_pos hb]
    dsimp only
    rcases evictOldest_total locked ((cfg.maxSize : Rat) * cfg.cleanupToRatio)
      (cleanupSorted cfg now locked dirs) (cleanupTotalAfterExpiry cfg now locked dirs)
      hsortcontains with hle | heq
    · exact hle
    · rw [heq]
      have hsum : sumSizes (cleanupSorted cfg now locked dirs)
          = sumSizes (cleanupSurvivors cfg now locked dirs) := by
        unfold sumSizes
        exact ((List.perm_insertionSort _ _).map _).sum_eq
      have hsplit := sumSizes_filter_split (isExpired cfg now) (cleanupCollected locked dirs)
      have h0 : cleanupTotalAfterExpiry cfg now locked dirs -
          (sumSizes (cleanupSorted cfg now locked dirs) : Int) = 0 := by
        rw [hsum]
        unfold cleanupTotalAfterExpiry cleanupSurvivors cleanupExpired
        omega
      rw [h0]
      push_cast
      exact mul_nonneg (by positivity) hr
  · by_cases hb : (cfg.maxSize : Int) < cleanupTotalAfterExpiry cfg now locked dirs
    · obtain ⟨k, hk⟩ := evictOldest_prefix locked
        ((cfg.maxSize : Rat) * cfg.cleanupToRatio) (cleanupSorted cfg now locked dirs)
        (cleanupTotalAfterExpiry cfg now locked dirs) hsortcontains
      refine ⟨k, ?_⟩
      unfold cleanupCache
      rw [if_pos hb]
      dsimp only
      rw [hk]
    · refine ⟨0, ?_⟩
      unfold cleanupCache
      rw [if_neg hb]
      simp
  · intro env
    unfold mkCleanupToRatio
    match env with
    | none => norm_num
    | some r =>
      dsimp only
      by_cases h : 0 < r ∧ r < 1
      · rw [if_pos h]
        exact h
      · rw [if_neg h]
        norm_num

/-- Witness for `cleanupCache_spec`: on a concrete listing with a locked
expired directory, an unlocked expired directory (id 77) and two fresh
directories over the cap, the sweep deletes id 77 and brings the total
under `10 * 0.8`. -/
theorem cleanupCache_spec_witness :
    (77 : Nat) ∈ (cleanupCache sweepCfg 1000 [5] sweepDirs).deletedIds ∧
    ((cleanupCache sweepCfg 1000 [5] sweepDirs).finalTotal : Rat) ≤
      (sweepCfg.maxSize : Rat) * sweepCfg.cleanupToRatio := by
  constructor
  · exact (cleanupCache_spec sweepCfg 1000 [5] sweepDirs).2.1
      { id := 77, size := 40, mtime := 0, infoTimestamp := some 100 }
      (by decide) (by decide) (by decide)
  · exact (cleanupCache_spec sweepCfg 1000 [5] sweepDirs).2.2.1 (by decide)
      (by norm_num [sweepCfg])

/-! ## C1 — in-flight deduplication under interleaving -/

/-- Updating one slot of the phase list shifts the phase count by the
predicate's value at the old and new phases. -/
theorem countP_set_eq (p : ReqPhase → Bool) :
    ∀ (l : List ReqPhase) (i : Nat) (b ph : ReqPhase), l[i]? = some ph →
      (l.set i b).countP p + (if p ph then 1 else 0) =
        l.countP p + (if p b then 1 else 0) := by
  intro l
  induction l with
  | nil => intro i b ph h; simp at h
  | cons a t ih =>
    intro i b ph h
    cases i with
    | zero =>
      simp only [List.getElem?_cons_zero, Option.some.injEq] at h
      subst h
      simp only [List.set_cons_zero, List.countP_cons]
      omega
    | succ i =>
      simp only [List.getElem?_cons_succ] at h
      have hrec := ih i b ph h
      simp only [List.set_cons_succ, List.countP_cons]
      omega

/-- One scheduler turn preserves the accounting invariant: the number of
`generateSongSegments` invocations equals the number of handlers that have
passed the install-lock-and-invoke step. -/
theorem stepHandler_invariant (sys : SegSystem) (i : Nat)
    (h : sys.started = sys.handlers.countP isOwnerPhase) :
    (stepHandler sys i).started = (stepHandler sys i).handlers.countP isOwnerPhase := by
  cases hg : sys.handlers[i]? with
  | none =>
    have hrw : stepHandler sys i = sys := by
      unfold stepHandler; rw [hg]
    rw [hrw]; exact h
  | some ph =>
    cases ph with
    | checking =>
      cases hl : sys.lockHeld with
      | true =>
        have hrw : stepHandler sys i =
            { sys with handlers := sys.handlers.set i .joining } := by
          unfold stepHandler; rw [hg]; dsimp only; rw [hl]; simp
        rw [hrw]
        have hc := countP_set_eq isOwnerPhase sys.handlers i .joining .checking hg
        simp [isOwnerPhase] at hc
        dsimp only
        omega
      | false =>
        have hrw : stepHandler sys i =
            { sys with handlers := sys.handlers.set i .fetchingUrl } := by
          unfold stepHandler; rw [hg]; dsimp only; rw [hl]; simp
        rw [hrw]
        have hc := countP_set_eq isOwnerPhase sys.handlers i .fetchingUrl .checking hg
        simp [isOwnerPhase] at hc
        dsimp only
        omega
    | fetchingUrl =>
      have hrw : stepHandler sys i =
          { sys with
            handlers := sys.handlers.set i .generating, lockHeld := true,
            started := sys.started + 1 } := by
        unfold stepHandler; rw [hg]
      rw [hrw]
      have hc := countP_set_eq isOwnerPhase sys.handlers i .generating .fetchingUrl hg
      simp [isOwnerPhase] at hc
      dsimp only
      omega
    | generating =>
      have hrw : stepHandler sys i =
          { sys with handlers := sys.handlers.set i .doneOwner, lockHeld := false } := by
        unfold stepHandler; rw [hg]
      rw [hrw]
      have hc := countP_set_eq isOwnerPhase sys.handlers i .doneOwner .generating hg
      simp [isOwnerPhase] at hc
      dsimp only
      omega
    | joining =>
      cases hl : sys.lockHeld with
      | true =>
        have hrw : stepHandler sys i = sys := by
          unfold stepHandler; rw [hg]; dsimp only; rw [hl]; simp
        rw [hrw]; exact h
      | false =>
        have hrw : stepHandler sys i =
            { sys with handlers := sys.handlers.set i .doneJoiner } := by
          unfold stepHandler; rw [hg]; dsimp only; rw [hl]; simp
        rw [hrw]
        have hc := countP_set_eq isOwnerPhase sys.handlers i .doneJoiner .joining hg
        simp [isOwnerPhase] at hc
        dsimp only
        omega
    | doneOwner =>
      have hrw : stepHandler sys i = sys := by
        unfold stepHandler; rw [hg]
      rw [hrw]; exact h
    | doneJoiner =>
      have hrw : stepHandler sys i = sys := by
        unfold stepHandler; rw [hg]
      rw [hrw]; exact h

/-- The accounting invariant holds along every schedule. -/
theorem runSchedule_invariant (sched : List Nat) :
    ∀ (sys : SegSystem), sys.started = sys.handlers.countP isOwnerPhase →
      (runSchedule sys sched).started =
        (runSchedule sys sched).handlers.countP isOwnerPhase := by
  induction sched with
  | nil => intro sys h; exact h
  | cons i rest ih =>
    intro sys h
    exact ih _ (stepHandler_invariant sys i h)

/-- Initially no handler is an owner. -/
theorem countP_replicate_checking (n : Nat) :
    (List.replicate n ReqPhase.checking).countP isOwnerPhase = 0 := by
  induction n with
  | zero => rfl
  | succ n ih => simp [List.replicate, List.countP_cons, isOwnerPhase, ih]

/-- **C1 (amended)**: under every interleaving of concurrent segment
requests for the same uncached track, a requester that observes the
in-flight handle at its `generatingLocks.has` check joins it and never
invokes `generateSongSegments`; the number of transcode invocations equals
the number of requesters that observed no handle at their check.  Because
the handle is installed only *after* the `await netease.getSongUrl`
suspension that follows the check, that number can exceed one (see the
counterexample), so the claimed "exactly one transcode invocation" holds
only for requesters whose check happens after the first install. -/
theorem inflight_dedup_amended (n : Nat) (sched : List Nat) :
    (runSchedule (initSegSystem n) sched).started =
      (runSchedule (initSegSystem n) sched).handlers.countP isOwnerPhase :=
  runSchedule_invariant sched (initSegSystem n)
    (by simp [initSegSystem, countP_replicate_checking])

/-- **C1 counterexample**: two concurrent requesters for the same uncached
track, scheduled so both pass the `generatingLocks.has` check before either
resumes from the audio-URL fetch: both install the lock and both invoke
`generateSongSegments` — 2 transcode invocations, refuting "exactly one
transcode invocation is started". -/
theorem inflight_dedup_cex :
    (runSchedule (initSegSystem 2) [0, 1, 0, 1]).started = 2 ∧
    (runSchedule (initSegSystem 2) [0, 1, 0, 1]).handlers =
      [ReqPhase.generating, ReqPhase.generating] := by decide

end MusicForUrl
